import Mathlib

/-!
Shallow embedding of `src/websocket.c` (h1zzz/websocket), a client-side
WebSocket (RFC 6455) handshake and frame codec, together with theorems
about its behaviour.

Modelling conventions:
* A byte is a `Nat` (kept below 256 where it matters); the transport input
  is a `List Nat` of readable bytes, consumed front-first; transport output
  is the list of `net_write` calls, each a `List Nat`.
* `net_readn` (the read-exactly-n primitive of the net layer) yields the
  first `n` bytes or fails.
* `xrand` is modelled as a stream `Nat → Nat` of random source values
  indexed by call number.
* Machine arithmetic follows the build platform the code itself assumes: a
  little-endian host (so `ntohs`/`ntohl` byte-swap) and a 32-bit `size_t`
  (the code comment at src/websocket.c:404-407 states `size_t` has 32 bits).
* The -1 error returns, distinguished by their fprintf diagnostics, are
  modelled as an `Err` value per diagnostic site.
-/

namespace WS

/-- Error outcomes of websocket.c, one per distinct failure diagnostic. -/
inductive Err where
  /-- net_read / net_readn / net_write failure. -/
  | transport
  /-- RSVx reserved field, must be 0 (src/websocket.c:256). -/
  | reservedBit
  /-- no support continuation frame (src/websocket.c:343). -/
  | fragmentation
  /-- request failed, invalid status (src/websocket.c:148). -/
  | handshakeRejected
  /-- required Sec-WebSocket-Accept was not found (src/websocket.c:160). -/
  | missingAccept
  /-- Sec-WebSocket-Accept verification failed (src/websocket.c:172). -/
  | acceptMismatch
  /-- snprintf / mbedtls base64 failure inside the handshake helpers. -/
  | encoding
  deriving DecidableEq

/-- Modelled from the spec: `net_readn` is declared in the net layer (not
under src/); per the spec it is the read-exactly-n transport primitive that
blocks until `n` bytes are available and returns them, or fails. -/
def net_readn (s : List Nat) (n : Nat) : Except Err (List Nat × List Nat) :=
  if n ≤ s.length then .ok (s.take n, s.drop n) else .error .transport

/-- struct frame_hdr (src/websocket.c:30-35). The fields keep the C values:
`fin = buf[0] & 0x80` and `mask = buf[1] & 0x80`, nonzero meaning set. -/
structure FrameHdr where
  fin : Nat
  opcode : Nat
  mask : Nat
  len : Nat
  deriving DecidableEq

/-- Little-endian load of a byte list into an integer: what a multibyte
load such as `*(uint16_t *)buf` reads on the little-endian build host. -/
def leLoad (bs : List Nat) : Nat := bs.foldr (fun b a => a * 256 + b) 0

/-- Byte swap of a 16-bit value: `ntohs`/`htons` on a little-endian host. -/
def bswap16 (x : Nat) : Nat := x % 256 * 256 + x / 256 % 256

/-- ntohs applied to a uint16_t argument. -/
def ntohs (x : Nat) : Nat := bswap16 (x % 2 ^ 16)

/-- Byte swap of a 32-bit value: `ntohl`/`htonl` on a little-endian host. -/
def bswap32 (x : Nat) : Nat :=
  x % 256 * 2 ^ 24 + x / 256 % 256 * 2 ^ 16 + x / 2 ^ 16 % 256 * 256 + x / 2 ^ 24 % 256

/-- ntohl applied to a uint32_t argument. -/
def ntohl (x : Nat) : Nat := bswap32 (x % 2 ^ 32)

/-- Big-endian (network byte order) interpretation of a byte list. -/
def beLoad (bs : List Nat) : Nat := bs.foldl (fun a b => a * 256 + b) 0

/-- Or-ing a value shifted past `k` bits with a value below `2 ^ k` is
addition: the C code combines disjoint bit ranges with `|`. -/
theorem two_pow_mul_lor_eq_add {k : Nat} :
    ∀ {a b : Nat}, b < 2 ^ k → a * 2 ^ k ||| b = a * 2 ^ k + b := by
  induction k with
  | zero =>
    intro a b hb
    interval_cases b
    simp
  | succ k ih =>
    intro a b hb
    have hp : 2 ^ (k + 1) = 2 ^ k * 2 := pow_succ 2 k
    have hb2 : b / 2 < 2 ^ k := by omega
    have h2 : Nat.bit (decide (b % 2 = 1)) (b / 2) = b := by
      have h := Nat.bit_decide_mod_two_eq_one_shiftRight_one b
      simpa [Nat.shiftRight_one] using h
    have h1 : a * 2 ^ (k + 1) = Nat.bit false (a * 2 ^ k) := by
      rw [Nat.bit_val, Bool.toNat_false, hp]
      ring
    calc a * 2 ^ (k + 1) ||| b
        = Nat.bit false (a * 2 ^ k) ||| Nat.bit (decide (b % 2 = 1)) (b / 2) := by
          rw [← h1, h2]
      _ = Nat.bit (false || decide (b % 2 = 1)) (a * 2 ^ k ||| b / 2) :=
          Nat.lor_bit false (a * 2 ^ k) (decide (b % 2 = 1)) (b / 2)
      _ = Nat.bit (decide (b % 2 = 1)) (a * 2 ^ k + b / 2) := by
          rw [ih hb2, Bool.false_or]
      _ = a * 2 ^ (k + 1) + b := by
          rw [Nat.bit_val, hp, ← mul_assoc]
          rcases Nat.mod_two_eq_zero_or_one b with h | h <;> simp [h] <;> omega

/-- Variant of the disjoint-or fact for the constant 128 = 2 ^ 7. -/
theorem lor_128_eq_add {n : Nat} (h : n < 128) : 128 ||| n = 128 + n := by
  have := two_pow_mul_lor_eq_add (a := 1) (b := n) (k := 7) (by omega)
  simpa using this

/-- websocket_read_frame_hdr (src/websocket.c:234-295): read two bytes,
reject a nonzero RSV1/RSV2/RSV3 field, then decode fin, opcode, mask and
the three-tier payload length (the 126 and 127 classes pull 2 and 8 more
bytes and are decoded through the `ntohs`/`ntohl` calls of the source).
Returns the header and the unconsumed transport bytes. -/
def websocket_read_frame_hdr (s : List Nat) : Except Err (FrameHdr × List Nat) :=
  match net_readn s 2 with
  | .error e => .error e
  | .ok (b, s1) =>
    if b.getD 0 0 &&& 0x70 ≠ 0 then .error .reservedBit
    else
      let fin := b.getD 0 0 &&& 0x80
      let opcode := b.getD 0 0 &&& 0xf
      let mask := b.getD 1 0 &&& 0x80
      let len := b.getD 1 0 &&& 0x7f
      if len = 126 then
        match net_readn s1 2 with
        | .error e => .error e
        | .ok (c, s2) => .ok (⟨fin, opcode, mask, ntohs (leLoad c)⟩, s2)
      else if len = 127 then
        match net_readn s1 8 with
        | .error e => .error e
        | .ok (c, s2) =>
          .ok (⟨fin, opcode, mask,
            ntohl (leLoad c % 2 ^ 32) * 2 ^ 32 ||| ntohl (leLoad c / 2 ^ 32 % 2 ^ 32)⟩, s2)
      else .ok (⟨fin, opcode, mask, len⟩, s1)

/-- websocket_skip_remaining (src/websocket.c:297-314): while payload bytes
of the previous frame remain, read and discard them in chunks of at most
`sizeof buf = 1024` bytes. The connection field `remaining` is modelled
from the spec as an integer counter (its declaration sits in the missing
websocket.h). Besides the final counter and the unconsumed bytes, the model
returns the sizes of the net_readn calls it made, so the chunking is
visible to theorems. -/
def websocket_skip_remaining (remaining : Int) (s : List Nat) :
    Except Err (Int × List Nat × List Nat) :=
  if _h : 0 < remaining then
    let n : Nat := if 1024 < remaining then 1024 else remaining.toNat
    match net_readn s n with
    | .error e => .error e
    | .ok (_, s1) =>
      match websocket_skip_remaining (remaining - n) s1 with
      | .error e => .error e
      | .ok (r, s2, ns) => .ok (r, s2, n :: ns)
  else .ok (remaining, s, [])
termination_by remaining.toNat
decreasing_by
  split <;> omega

/-- websocket_recv (src/websocket.c:316-379). Arguments: the current
`remaining` counter, the transport bytes and the caller buffer capacity
`cap` (the C parameter `n`). On success returns the opcode, the bytes
written into the caller buffer, the new `remaining` counter and the
unconsumed transport bytes. The mask key, when the mask bit is set, is
read but not applied to the payload — the unmasking marked TODO at
src/websocket.c:368 is absent from the source. -/
def websocket_recv (remaining : Int) (s : List Nat) (cap : Nat) :
    Except Err (Nat × List Nat × Int × List Nat) :=
  match (if 0 < remaining then websocket_skip_remaining remaining s
         else .ok (remaining, s, [])) with
  | .error e => .error e
  | .ok (_, s0, _) =>
    match websocket_read_frame_hdr s0 with
    | .error e => .error e
    | .ok (hdr, s1) =>
      if hdr.fin = 0 then .error .fragmentation
      else
        let r1 : Int := (hdr.len : Int)
        match (if hdr.mask ≠ 0 then net_readn s1 4 else .ok ([], s1)) with
        | .error e => .error e
        | .ok (_, s2) =>
          let m := if r1.toNat < cap then r1.toNat else cap
          match net_readn s2 m with
          | .error e => .error e
          | .ok (data, s3) => .ok (hdr.opcode, data, r1 - m, s3)

/-- Production of one random byte in this layer: `xrand() % 0xff`
(src/websocket.c:50 and src/websocket.c:416). The modulus is 0xff = 255,
not 256; the subsequent cast to `unsigned char` is the identity on the
result. -/
def genByte (r : Nat) : Nat := r % 0xff

/-- The 16-byte random nonce built by generate_websocket_key
(src/websocket.c:44-58) before base64 encoding: `tmp[i] = xrand() % 0xff`.
The base64 step itself is an external mbedtls call and not modelled. -/
def websocket_nonce (rand : Nat → Nat) : List Nat :=
  (List.range 16).map fun i => genByte (rand i)

/-- The 4-byte per-frame mask key generated by websocket_send
(src/websocket.c:413-418): `mask_key[i] = (uint8_t)(xrand() % 0xff)`. -/
def sendMaskKey (rand : Nat → Nat) : List Nat :=
  (List.range 4).map fun i => genByte (rand i)

/-- The frame header bytes built by websocket_send (src/websocket.c:389-418)
for opcode `ty` (cast to `unsigned char`), payload length `n` (a 32-bit
`size_t`, so the `htonl` of `n & 0xffffffff` stores `n % 2 ^ 32`), and the
4-byte mask key appended after the length field: fin and mask are always
set and the length uses the three-tier scheme, stored in network byte
order by the `htons`/`htonl` calls of the source. -/
def sendHeader (ty : Nat) (n : Nat) (key : List Nat) : List Nat :=
  let b0 := 0x80 ||| ty % 256
  if n ≤ 125 then
    [b0, 0x80 ||| n] ++ key
  else if n ≤ 0xffff then
    [b0, 0x80 ||| 126, n / 256 % 256, n % 256] ++ key
  else
    [b0, 0x80 ||| 127, 0, 0, 0, 0,
     n % 2 ^ 32 / 2 ^ 24 % 256, n % 2 ^ 32 / 2 ^ 16 % 256,
     n % 2 ^ 32 / 256 % 256, n % 2 ^ 32 % 256] ++ key

/-- The masked payload stream of websocket_send (src/websocket.c:430-431):
byte `i` of the payload XORed with `mask_key[i % 4]`, where `i` is the
absolute index over the whole payload. -/
def maskedPayload (key p : List Nat) : List Nat :=
  (List.range p.length).map fun i => p.getD i 0 ^^^ key.getD (i % 4) 0

/-- The successive net_write payload chunks of websocket_send
(src/websocket.c:427-443): the 2048-byte `payload` buffer is flushed
exactly when it is full or the last payload byte has just been masked, so
the writes cut the masked stream every `sizeof payload = 2048` bytes, the
last cut possibly short; an empty payload produces no write at all. -/
def payloadChunks (l : List Nat) : List (List Nat) :=
  if _h : l = [] then [] else l.take 2048 :: payloadChunks (l.drop 2048)
termination_by l.length
decreasing_by
  rcases l with _ | ⟨a, l⟩
  · exact absurd rfl _h
  · simp only [List.length_drop, List.length_cons]
    omega

/-- websocket_send (src/websocket.c:381-446): the list of net_write calls
made on success (the header in one write, then the payload chunks) and the
returned count `nwrite`, which accumulates the payload write sizes. -/
def websocket_send (rand : Nat → Nat) (ty : Nat) (p : List Nat) :
    List (List Nat) × Nat :=
  let key := sendMaskKey rand
  (sendHeader ty p.length key :: payloadChunks (maskedPayload key p),
   ((payloadChunks (maskedPayload key p)).map List.length).sum)

/-- The 32-byte status line literal compared by memcmp
(src/websocket.c:147). -/
def statusLine : List Nat :=
  "HTTP/1.1 101 Switching Protocols".toList.map Char.toNat

/-- The header name literal searched by strstr (src/websocket.c:158). -/
def acceptHeaderName : List Nat :=
  "Sec-WebSocket-Accept: ".toList.map Char.toNat

/-- First index at which `pat` occurs as a contiguous run of `s`: the
strstr search over the response buffer. -/
def findSub (pat s : List Nat) : Option Nat :=
  (List.range (s.length + 1)).find? fun i => (s.drop i).take pat.length = pat

/-- The response-checking tail of websocket_handshake
(src/websocket.c:144-176), after the upgrade request has been written and
the response `resp` has been read into the zero-filled 4096-byte buffer
(modelled by padding with zero bytes). The argument `acKey` stands for the
result of generate_websocket_accept, an external mbedtls SHA-1/base64
computation: `none` models its -1 failure return, `some k` the computed
accept value of length `ret`. The source runs the status-line memcmp
first and only then calls generate_websocket_accept, locates the header
with strstr, skips the 22 name bytes and memcmp-compares `ret` bytes; the
model therefore consults `acKey` only after the status check passes. -/
def handshakeCheck (resp : List Nat) (acKey : Option (List Nat)) : Except Err Unit :=
  let buf := resp ++ List.replicate 4096 0
  if buf.take 32 ≠ statusLine then .error .handshakeRejected
  else
    match acKey with
    | none => .error .encoding
    | some k =>
      match findSub acceptHeaderName resp with
      | none => .error .missingAccept
      | some i =>
        if (buf.drop (i + 22)).take k.length ≠ k then .error .acceptMismatch
        else .ok ()

/-- Reading exactly two bytes from a stream that starts with two bytes. -/
theorem net_readn_two (b0 b1 : Nat) (rest : List Nat) :
    net_readn (b0 :: b1 :: rest) 2 = .ok ([b0, b1], rest) := by
  simp [net_readn]

/-- Header decode, short-length class: low seven bits of byte 1 at most
125 give the payload length directly and consume nothing further. -/
theorem read_frame_hdr_small (b0 b1 : Nat) (rest : List Nat)
    (hrsv : b0 &&& 0x70 = 0) (hL : b1 &&& 0x7f ≤ 125) :
    websocket_read_frame_hdr (b0 :: b1 :: rest) =
      .ok (⟨b0 &&& 0x80, b0 &&& 0xf, b1 &&& 0x80, b1 &&& 0x7f⟩, rest) := by
  have h126 : ¬ b1 &&& 0x7f = 126 := by omega
  have h127 : ¬ b1 &&& 0x7f = 127 := by omega
  simp [websocket_read_frame_hdr, net_readn_two, hrsv, h126, h127]

/-- Header decode, length class 126: two further bytes are read and run
through the ntohs load of the source. -/
theorem read_frame_hdr_126 (b0 b1 x0 x1 : Nat) (rest : List Nat)
    (hrsv : b0 &&& 0x70 = 0) (hL : b1 &&& 0x7f = 126) :
    websocket_read_frame_hdr (b0 :: b1 :: x0 :: x1 :: rest) =
      .ok (⟨b0 &&& 0x80, b0 &&& 0xf, b1 &&& 0x80, ntohs (leLoad [x0, x1])⟩, rest) := by
  have h2 : net_readn (x0 :: x1 :: rest) 2 = .ok ([x0, x1], rest) := net_readn_two _ _ _
  simp [websocket_read_frame_hdr, net_readn_two, hrsv, hL, h2]

/-- Header decode, length class 127: eight further bytes are read and run
through the two ntohl loads of the source. -/
theorem read_frame_hdr_127 (b0 b1 x0 x1 x2 x3 x4 x5 x6 x7 : Nat) (rest : List Nat)
    (hrsv : b0 &&& 0x70 = 0) (hL : b1 &&& 0x7f = 127) :
    websocket_read_frame_hdr
        (b0 :: b1 :: x0 :: x1 :: x2 :: x3 :: x4 :: x5 :: x6 :: x7 :: rest) =
      .ok (⟨b0 &&& 0x80, b0 &&& 0xf, b1 &&& 0x80,
        ntohl (leLoad [x0, x1, x2, x3, x4, x5, x6, x7] % 2 ^ 32) * 2 ^ 32 |||
          ntohl (leLoad [x0, x1, x2, x3, x4, x5, x6, x7] / 2 ^ 32 % 2 ^ 32)⟩, rest) := by
  have h8 : net_readn (x0 :: x1 :: x2 :: x3 :: x4 :: x5 :: x6 :: x7 :: rest) 8 =
      .ok ([x0, x1, x2, x3, x4, x5, x6, x7], rest) := by
    simp [net_readn]
  simp [websocket_read_frame_hdr, net_readn_two, hrsv, hL, h8]

/-- A 32-bit byte swap stays below 2 ^ 32. -/
theorem bswap32_lt (x : Nat) : bswap32 x < 2 ^ 32 := by
  unfold bswap32
  norm_num
  omega

/-- ntohl stays below 2 ^ 32. -/
theorem ntohl_lt (x : Nat) : ntohl x < 2 ^ 32 := bswap32_lt _

/-- On the little-endian host, the ntohs of a two-byte load is the
big-endian reading of those bytes. -/
theorem ntohs_leLoad_two (x0 x1 : Nat) (h0 : x0 < 256) (h1 : x1 < 256) :
    ntohs (leLoad [x0, x1]) = beLoad [x0, x1] := by
  simp [ntohs, leLoad, beLoad, bswap16]
  omega

/-- On the little-endian host, the two-ntohl recombination of an
eight-byte load (src/websocket.c:288-289) is the big-endian reading of
those bytes. -/
theorem len127_eq_beLoad (x0 x1 x2 x3 x4 x5 x6 x7 : Nat)
    (h0 : x0 < 256) (h1 : x1 < 256) (h2 : x2 < 256) (h3 : x3 < 256)
    (h4 : x4 < 256) (h5 : x5 < 256) (h6 : x6 < 256) (h7 : x7 < 256) :
    ntohl (leLoad [x0, x1, x2, x3, x4, x5, x6, x7] % 2 ^ 32) * 2 ^ 32 |||
      ntohl (leLoad [x0, x1, x2, x3, x4, x5, x6, x7] / 2 ^ 32 % 2 ^ 32) =
      beLoad [x0, x1, x2, x3, x4, x5, x6, x7] := by
  rw [two_pow_mul_lor_eq_add (ntohl_lt _)]
  have hp32 : (2 : Nat) ^ 32 = 4294967296 := by norm_num
  have hv : leLoad [x0, x1, x2, x3, x4, x5, x6, x7] =
      x0 + 256 * x1 + 65536 * x2 + 16777216 * x3 + 4294967296 * x4 +
        1099511627776 * x5 + 281474976710656 * x6 + 72057594037927936 * x7 := by
    simp [leLoad]
    ring
  rw [hp32, hv]
  have hlo : (x0 + 256 * x1 + 65536 * x2 + 16777216 * x3 + 4294967296 * x4 +
        1099511627776 * x5 + 281474976710656 * x6 + 72057594037927936 * x7) % 4294967296 =
      x0 + 256 * x1 + 65536 * x2 + 16777216 * x3 := by
    omega
  have hhi : (x0 + 256 * x1 + 65536 * x2 + 16777216 * x3 + 4294967296 * x4 +
        1099511627776 * x5 + 281474976710656 * x6 + 72057594037927936 * x7) / 4294967296 %
        4294967296 =
      x4 + 256 * x5 + 65536 * x6 + 16777216 * x7 := by
    omega
  rw [hlo, hhi]
  have hn1 : ntohl (x0 + 256 * x1 + 65536 * x2 + 16777216 * x3) =
      16777216 * x0 + 65536 * x1 + 256 * x2 + x3 := by
    simp [ntohl, bswap32]
    norm_num
    omega
  have hn2 : ntohl (x4 + 256 * x5 + 65536 * x6 + 16777216 * x7) =
      16777216 * x4 + 65536 * x5 + 256 * x6 + x7 := by
    simp [ntohl, bswap32]
    norm_num
    omega
  rw [hn1, hn2]
  have hb : beLoad [x0, x1, x2, x3, x4, x5, x6, x7] =
      72057594037927936 * x0 + 281474976710656 * x1 + 1099511627776 * x2 +
        4294967296 * x3 + 16777216 * x4 + 65536 * x5 + 256 * x6 + x7 := by
    simp [beLoad]
    ring
  rw [hb]
  ring

/-- An empty masked stream produces no payload write. -/
theorem payloadChunks_nil : payloadChunks [] = [] := by
  rw [payloadChunks]
  simp

/-- A nonempty masked stream of at most one buffer produces one write. -/
theorem payloadChunks_single (l : List Nat) (h0 : l ≠ []) (h1 : l.length ≤ 2048) :
    payloadChunks l = [l] := by
  rw [payloadChunks, dif_neg h0]
  have ht : l.take 2048 = l := List.take_of_length_le (by omega)
  have hd : l.drop 2048 = [] := List.drop_eq_nil_of_le (by omega)
  rw [ht, hd, payloadChunks_nil]

/-- Concatenating the payload writes restores the whole masked stream. -/
theorem payloadChunks_flatten (l : List Nat) : (payloadChunks l).flatten = l := by
  generalize hn : l.length = n
  induction n using Nat.strong_induction_on generalizing l with
  | _ n ih =>
    rw [payloadChunks]
    split
    · simp [*]
    · rename_i h
      have hpos : 0 < l.length := List.length_pos.mpr h
      have hlt : (l.drop 2048).length < n := by
        rw [List.length_drop]
        omega
      have hrec := ih (l.drop 2048).length hlt (l.drop 2048) rfl
      simp only [List.flatten_cons, hrec]
      exact List.take_append_drop _ _

/-- Every payload write carries at most 2048 bytes. -/
theorem payloadChunks_sizes (l : List Nat) : ∀ c ∈ payloadChunks l, c.length ≤ 2048 := by
  generalize hn : l.length = n
  induction n using Nat.strong_induction_on generalizing l with
  | _ n ih =>
    rw [payloadChunks]
    split
    · simp
    · rename_i h
      have hpos : 0 < l.length := List.length_pos.mpr h
      have hlt : (l.drop 2048).length < n := by
        rw [List.length_drop]
        omega
      intro c hc
      rcases List.mem_cons.mp hc with rfl | hc
      · simp [List.length_take]
      · exact ih (l.drop 2048).length hlt (l.drop 2048) rfl c hc

/-- A nonpositive remaining counter makes the skip loop a no-op. -/
theorem skip_nonpos (r : Int) (s : List Nat) (h : ¬ 0 < r) :
    websocket_skip_remaining r s = .ok (r, s, []) := by
  rw [websocket_skip_remaining, dif_neg h]

/-- With a positive remaining counter and enough transport bytes, the skip
loop consumes exactly the remaining bytes, ends with the counter at zero,
and issues reads of at most 1024 bytes each that sum to the drained
count. The fuel argument `k` bounds the loop for the induction. -/
theorem skip_drains (k : Nat) :
    ∀ (r : Int) (s : List Nat), r.toNat ≤ k → 0 < r → r.toNat ≤ s.length →
    ∃ ns, websocket_skip_remaining r s = .ok (0, s.drop r.toNat, ns) ∧
      ns.sum = r.toNat ∧ ∀ m ∈ ns, 0 < m ∧ m ≤ 1024 := by
  induction k with
  | zero =>
    intro r s hk hr hs
    omega
  | succ k ih =>
    intro r s hk hr hs
    by_cases h1024 : 1024 < r
    · have hread : net_readn s 1024 = .ok (s.take 1024, s.drop 1024) := by
        rw [net_readn, if_pos (by omega)]
      obtain ⟨ns, hskip, hsum, hbnd⟩ :=
        ih (r - 1024) (s.drop 1024) (by omega) (by omega)
          (by rw [List.length_drop]; omega)
      refine ⟨1024 :: ns, ?_, ?_, ?_⟩
      · rw [websocket_skip_remaining, dif_pos hr]
        simp only [if_pos h1024, hread, Nat.cast_ofNat, hskip]
        rw [List.drop_drop]
        rw [show 1024 + (r - 1024).toNat = r.toNat from by omega]
      · simp only [List.sum_cons, hsum]
        omega
      · intro m hm
        rcases List.mem_cons.mp hm with rfl | hm
        · omega
        · exact hbnd m hm
    · have hread : net_readn s r.toNat = .ok (s.take r.toNat, s.drop r.toNat) := by
        rw [net_readn, if_pos hs]
      refine ⟨[r.toNat], ?_, by simp, ?_⟩
      · rw [websocket_skip_remaining, dif_pos hr]
        simp only [if_neg h1024, hread]
        rw [show r - (r.toNat : Int) = 0 from by omega]
        rw [skip_nonpos 0 _ (by omega)]
      · intro m hm
        rcases List.mem_cons.mp hm with rfl | hm
        · omega
        · simp at hm

/-- C1: the claim says websocket_recv XOR-unmasks each delivered payload
byte with mask_key[index % 4] when the inbound frame has the mask bit set.
The code does not: it reads the 4-byte key and then copies the payload
through unchanged (the unmasking of RFC 6455 section 5.3 is left as the
TODO at src/websocket.c:368). Evidence: for the masked frame
[0x82, 0x81, 1, 0, 0, 0, 0x41] (fin+binary, mask set, length 1, mask key
1 0 0 0, payload byte 0x41), recv delivers the raw byte 0x41, although the
claimed unmasking would deliver 0x41 XOR 1 = 0x40. The delivered count
min(capacity, length) = 1 does hold. -/
theorem recv_reads_mask_key_but_delivers_raw_bytes :
    websocket_recv 0 [0x82, 0x81, 1, 0, 0, 0, 0x41] 16 = .ok (2, [0x41], 0, []) ∧
    (0x41 : Nat) ^^^ 1 = 0x40 ∧ (0x41 : Nat) ≠ 0x40 :=
  ⟨rfl, by decide, by decide⟩

/-- C2: the claim says a send/receive loopback round trip reproduces the
original payload bytes and opcode for n in {0, 1, 125, 126, 127, 65535,
65536}. It fails already at n = 1: because websocket_recv never unmasks
(src/websocket.c:368), receiving the bytes produced by websocket_send
yields the masked payload. With the random stream constantly 1 the mask
key is [1, 1, 1, 1] and sending payload [0] comes back as [1], not [0]
(the opcode, 2, does come back unchanged). -/
theorem send_recv_roundtrip_not_identity :
    websocket_recv 0 (websocket_send (fun _ => 1) 2 [0]).1.flatten 16 =
      .ok (2, [1], 0, []) ∧ ([1] : List Nat) ≠ [0] := by
  have hw : (websocket_send (fun _ => 1) 2 [0]).1 = [[0x82, 0x81, 1, 1, 1, 1], [1]] := by
    simp only [websocket_send]
    rw [show maskedPayload (sendMaskKey fun _ => 1) [0] = [1] from rfl]
    rw [payloadChunks_single [1] (by decide) (by decide)]
    rfl
  rw [hw]
  exact ⟨rfl, by decide⟩

/-- C3: websocket_send encodes the payload length in three tiers. For
n ≤ 125 the base header is 2 bytes and byte 1 carries n in its low 7 bits;
for 126 ≤ n ≤ 65535 it is 4 bytes, length class 126, with n as a
big-endian 16-bit integer; for n ≥ 65536 it is 10 bytes, length class 127,
with n as a big-endian 64-bit integer whose high 32 bits are zero. With
the 4-byte mask key appended the full header is 6, 8 or 14 bytes. The
bound n < 2 ^ 32 is the range of the 32-bit `size_t` the code is written
for (src/websocket.c:404-407). -/
theorem send_header_three_tiers (ty n : Nat) (key : List Nat)
    (hkey : key.length = 4) (hn : n < 2 ^ 32) :
    (n ≤ 125 →
      (sendHeader ty n key).length = 6 ∧
      (sendHeader ty n key).getD 1 0 = 128 + n ∧
      (sendHeader ty n key).getD 1 0 % 128 = n) ∧
    (126 ≤ n → n ≤ 65535 →
      (sendHeader ty n key).length = 8 ∧
      (sendHeader ty n key).getD 1 0 % 128 = 126 ∧
      beLoad ((sendHeader ty n key).drop 2 |>.take 2) = n) ∧
    (65536 ≤ n →
      (sendHeader ty n key).length = 14 ∧
      (sendHeader ty n key).getD 1 0 % 128 = 127 ∧
      ((sendHeader ty n key).drop 2 |>.take 4) = [0, 0, 0, 0] ∧
      beLoad ((sendHeader ty n key).drop 2 |>.take 8) = n) := by
  refine ⟨?_, ?_, ?_⟩
  · intro h
    have hh : sendHeader ty n key = [128 ||| ty % 256, 128 + n] ++ key := by
      simp only [sendHeader]
      rw [if_pos h, lor_128_eq_add (n := n) (by omega)]
    rw [hh]
    refine ⟨by simp [hkey], by simp, by simp; omega⟩
  · intro h1 h2
    have hh : sendHeader ty n key =
        [128 ||| ty % 256, 254, n / 256 % 256, n % 256] ++ key := by
      simp only [sendHeader]
      rw [if_neg (by omega), if_pos (by omega),
        show (128 ||| 126 : Nat) = 254 from by decide]
    rw [hh]
    refine ⟨by simp [hkey], by simp, ?_⟩
    simp [beLoad]
    omega
  · intro h1
    have hh : sendHeader ty n key =
        [128 ||| ty % 256, 255, 0, 0, 0, 0,
         n % 2 ^ 32 / 2 ^ 24 % 256, n % 2 ^ 32 / 2 ^ 16 % 256,
         n % 2 ^ 32 / 256 % 256, n % 2 ^ 32 % 256] ++ key := by
      simp only [sendHeader]
      rw [if_neg (by omega), if_neg (by omega),
        show (128 ||| 127 : Nat) = 255 from by decide]
    rw [hh]
    refine ⟨by simp [hkey], by simp, by simp, ?_⟩
    simp [beLoad]
    omega

/-- C3 witness: the 65536 boundary instance of the header tiers. -/
theorem send_header_three_tiers_witness :
    (sendHeader 2 65536 [9, 9, 9, 9]).length = 14 ∧
    (sendHeader 2 65536 [9, 9, 9, 9]).getD 1 0 % 128 = 127 ∧
    ((sendHeader 2 65536 [9, 9, 9, 9]).drop 2 |>.take 4) = [0, 0, 0, 0] ∧
    beLoad ((sendHeader 2 65536 [9, 9, 9, 9]).drop 2 |>.take 8) = 65536 :=
  (send_header_three_tiers 2 65536 [9, 9, 9, 9] (by decide) (by norm_num)).2.2
    (by norm_num)

/-- C4: websocket_read_frame_hdr decodes the payload length from the low
7 bits L of byte 1: L ≤ 125 is the length itself; L = 126 reads 2 more
bytes as a big-endian 16-bit integer; L = 127 reads 8 more bytes as a
big-endian 64-bit integer. -/
theorem read_frame_hdr_payload_length (b0 b1 : Nat) (rest : List Nat)
    (hrsv : b0 &&& 0x70 = 0) (hb : ∀ x ∈ rest, x < 256) (hlen : 8 ≤ rest.length) :
    (b1 &&& 0x7f ≤ 125 → websocket_read_frame_hdr (b0 :: b1 :: rest) =
      .ok (⟨b0 &&& 0x80, b0 &&& 0xf, b1 &&& 0x80, b1 &&& 0x7f⟩, rest)) ∧
    (b1 &&& 0x7f = 126 → websocket_read_frame_hdr (b0 :: b1 :: rest) =
      .ok (⟨b0 &&& 0x80, b0 &&& 0xf, b1 &&& 0x80, beLoad (rest.take 2)⟩, rest.drop 2)) ∧
    (b1 &&& 0x7f = 127 → websocket_read_frame_hdr (b0 :: b1 :: rest) =
      .ok (⟨b0 &&& 0x80, b0 &&& 0xf, b1 &&& 0x80, beLoad (rest.take 8)⟩, rest.drop 8)) := by
  rcases rest with _ | ⟨x0, rest⟩
  · simp at hlen
  rcases rest with _ | ⟨x1, rest⟩
  · simp at hlen
  rcases rest with _ | ⟨x2, rest⟩
  · simp at hlen
  rcases rest with _ | ⟨x3, rest⟩
  · simp at hlen
  rcases rest with _ | ⟨x4, rest⟩
  · simp at hlen
  rcases rest with _ | ⟨x5, rest⟩
  · simp at hlen
  rcases rest with _ | ⟨x6, rest⟩
  · simp at hlen
  rcases rest with _ | ⟨x7, rest⟩
  · simp at hlen
  have h0 : x0 < 256 := hb x0 (by simp)
  have h1 : x1 < 256 := hb x1 (by simp)
  have h2 : x2 < 256 := hb x2 (by simp)
  have h3 : x3 < 256 := hb x3 (by simp)
  have h4 : x4 < 256 := hb x4 (by simp)
  have h5 : x5 < 256 := hb x5 (by simp)
  have h6 : x6 < 256 := hb x6 (by simp)
  have h7 : x7 < 256 := hb x7 (by simp)
  refine ⟨?_, ?_, ?_⟩
  · intro hL
    exact read_frame_hdr_small b0 b1 _ hrsv hL
  · intro hL
    rw [read_frame_hdr_126 b0 b1 x0 x1 _ hrsv hL, ntohs_leLoad_two x0 x1 h0 h1]
    simp
  · intro hL
    rw [read_frame_hdr_127 b0 b1 x0 x1 x2 x3 x4 x5 x6 x7 _ hrsv hL,
      len127_eq_beLoad x0 x1 x2 x3 x4 x5 x6 x7 h0 h1 h2 h3 h4 h5 h6 h7]
    simp

/-- C4 witness: a 127-class header over the bytes 0..7. -/
theorem read_frame_hdr_payload_length_witness :
    websocket_read_frame_hdr (0x81 :: 127 :: [0, 1, 2, 3, 4, 5, 6, 7]) =
      .ok (⟨0x81 &&& 0x80, 0x81 &&& 0xf, 127 &&& 0x80,
        beLoad ([0, 1, 2, 3, 4, 5, 6, 7].take 8)⟩, [0, 1, 2, 3, 4, 5, 6, 7].drop 8) :=
  (read_frame_hdr_payload_length 0x81 127 [0, 1, 2, 3, 4, 5, 6, 7] (by decide)
    (by decide) (by decide)).2.2 (by decide)

/-- C5: the remaining counter stays nonnegative, and a receive that starts
with remaining > 0 first drains exactly that many bytes from the transport
in reads of at most 1024 bytes before decoding a new header, after which
it behaves as a receive started at the frame boundary; every successful
receive of a frame whose decoded header carries payload length L — any
length class, masked or not — delivers min(cap, L) bytes and leaves
remaining = L - min(cap, L). -/
theorem recv_remaining_accounting :
    (∀ (r : Int) (s : List Nat), 0 < r → r.toNat ≤ s.length →
      ∃ ns, websocket_skip_remaining r s = .ok (0, s.drop r.toNat, ns) ∧
        ns.sum = r.toNat ∧ ∀ m ∈ ns, 0 < m ∧ m ≤ 1024) ∧
    (∀ (r : Int) (s : List Nat) (cap : Nat), 0 < r → r.toNat ≤ s.length →
      websocket_recv r s cap = websocket_recv 0 (s.drop r.toNat) cap) ∧
    (∀ (r : Int) (s : List Nat) (cap ty : Nat) (data : List Nat) (r2 : Int)
        (s2 : List Nat),
      websocket_recv r s cap = .ok (ty, data, r2, s2) → 0 ≤ r2) ∧
    (∀ (s : List Nat) (cap : Nat) (hdr : FrameHdr) (s1 : List Nat),
      websocket_read_frame_hdr s = .ok (hdr, s1) → hdr.fin ≠ 0 →
      (if hdr.mask ≠ 0 then 4 + min cap hdr.len else min cap hdr.len) ≤ s1.length →
      websocket_recv 0 s cap =
        .ok (hdr.opcode,
          (if hdr.mask ≠ 0 then s1.drop 4 else s1).take (min cap hdr.len),
          (hdr.len : Int) - (min cap hdr.len : Nat),
          (if hdr.mask ≠ 0 then s1.drop 4 else s1).drop (min cap hdr.len)) ∧
      ((if hdr.mask ≠ 0 then s1.drop 4 else s1).take (min cap hdr.len)).length =
        min cap hdr.len) ∧
    (∀ (b0 b1 : Nat) (rest : List Nat) (cap : Nat),
      b0 &&& 0x70 = 0 → b0 &&& 0x80 ≠ 0 → b1 &&& 0x80 = 0 → b1 &&& 0x7f ≤ 125 →
      b1 &&& 0x7f ≤ rest.length →
      websocket_recv 0 (b0 :: b1 :: rest) cap =
        .ok (b0 &&& 0xf, rest.take (min cap (b1 &&& 0x7f)),
          ((b1 &&& 0x7f : Nat) : Int) - (min cap (b1 &&& 0x7f) : Nat),
          rest.drop (min cap (b1 &&& 0x7f)))) := by
  refine ⟨?_, ?_, ?_, ?_, ?_⟩
  · intro r s hr hs
    exact skip_drains r.toNat r s le_rfl hr hs
  · intro r s cap hr hs
    obtain ⟨ns, hskip, _, _⟩ := skip_drains r.toNat r s le_rfl hr hs
    simp [websocket_recv, if_pos hr, hskip]
  · intro r s cap ty data r2 s2 h
    simp only [websocket_recv] at h
    split at h
    · exact absurd h (by simp)
    · split at h
      · exact absurd h (by simp)
      · split at h
        · exact absurd h (by simp)
        · split at h
          · exact absurd h (by simp)
          · split at h
            · exact absurd h (by simp)
            · simp only [Except.ok.injEq, Prod.mk.injEq] at h
              obtain ⟨-, -, h3, -⟩ := h
              rw [← h3]
              split <;> omega
  · intro s cap hdr s1 hhdr hfin hlen
    have hm : (if hdr.len < cap then hdr.len else cap) = min cap hdr.len := by
      rcases Nat.lt_or_ge hdr.len cap with h | h
      · rw [if_pos h, min_eq_right (le_of_lt h)]
      · rw [if_neg (not_lt.mpr h), min_eq_left h]
    rcases eq_or_ne hdr.mask 0 with hmz | hmk
    · rw [if_neg (by simp [hmz])] at hlen
      have hrd : net_readn s1 (min cap hdr.len) =
          .ok (s1.take (min cap hdr.len), s1.drop (min cap hdr.len)) := by
        rw [net_readn, if_pos hlen]
      constructor
      · simp [websocket_recv, hhdr, hfin, hmz, hm, hrd]
      · rw [if_neg (by simp [hmz]), List.length_take]
        omega
    · rw [if_pos hmk] at hlen
      have h4 : net_readn s1 4 = .ok (s1.take 4, s1.drop 4) := by
        rw [net_readn, if_pos (by omega)]
      have hrd : net_readn (s1.drop 4) (min cap hdr.len) =
          .ok ((s1.drop 4).take (min cap hdr.len), (s1.drop 4).drop (min cap hdr.len)) := by
        rw [net_readn, if_pos (by rw [List.length_drop]; omega)]
      constructor
      · simp [websocket_recv, hhdr, hfin, hmk, h4, hm, hrd]
      · rw [if_pos hmk, List.length_take, List.length_drop]
        omega
  · intro b0 b1 rest cap hrsv hfin hmask hL hrest
    have hm : (if (b1 &&& 0x7f : Nat) < cap then (b1 &&& 0x7f : Nat) else cap) =
        min cap (b1 &&& 0x7f) := by
      rcases Nat.lt_or_ge (b1 &&& 0x7f) cap with h | h
      · rw [if_pos h, min_eq_right (le_of_lt h)]
      · rw [if_neg (not_lt.mpr h), min_eq_left h]
    have hrd : net_readn rest (min cap (b1 &&& 0x7f)) =
        .ok (rest.take (min cap (b1 &&& 0x7f)), rest.drop (min cap (b1 &&& 0x7f))) := by
      rw [net_readn,
        if_pos (le_trans (min_le_right cap (b1 &&& 0x7f)) hrest)]
    simp [websocket_recv, read_frame_hdr_small b0 b1 rest hrsv hL, hfin, hmask,
      hm, hrd]

/-- C5 witness: concrete instances of the five accounting facts; the
fourth is a masked frame of the 126 length class (payload length 3,
capacity 2), delivering 2 bytes and leaving remaining = 1. -/
theorem recv_remaining_accounting_witness :
    (∃ ns, websocket_skip_remaining 3 [7, 8, 9] = .ok (0, [], ns) ∧
      ns.sum = 3 ∧ ∀ m ∈ ns, 0 < m ∧ m ≤ 1024) ∧
    websocket_recv 3 [7, 8, 9, 0x82, 0x80] 4 = websocket_recv 0 [0x82, 0x80] 4 ∧
    (0 : Int) ≤ 0 ∧
    (websocket_recv 0 [0x82, 0xFE, 0, 3, 9, 9, 9, 9, 1, 2, 3] 2 =
        .ok (2, [1, 2], 1, [3]) ∧
      ([1, 2] : List Nat).length = 2) ∧
    websocket_recv 0 [0x82, 0x01, 5] 4 = .ok (2, [5], 0, []) :=
  ⟨recv_remaining_accounting.1 3 [7, 8, 9] (by decide) (by decide),
   recv_remaining_accounting.2.1 3 [7, 8, 9, 0x82, 0x80] 4 (by decide) (by decide),
   recv_remaining_accounting.2.2.1 0 [0x82, 0x01, 5] 4 2 [5] 0 [] rfl,
   recv_remaining_accounting.2.2.2.1 [0x82, 0xFE, 0, 3, 9, 9, 9, 9, 1, 2, 3] 2
     ⟨0x80, 2, 0x80, 3⟩ [9, 9, 9, 9, 1, 2, 3] rfl (by decide) (by decide),
   recv_remaining_accounting.2.2.2.2 0x82 0x01 [5] 4 (by decide) (by decide)
     (by decide) (by decide) (by decide)⟩

/-- C6: a first header byte with any of the three reserved bits
(0x70 mask) set makes websocket_read_frame_hdr fail with the reserved-bit
error, whatever the rest of the header holds. -/
theorem read_frame_hdr_rejects_reserved_bits (b0 b1 : Nat) (rest : List Nat)
    (h : b0 &&& 0x70 ≠ 0) :
    websocket_read_frame_hdr (b0 :: b1 :: rest) = .error .reservedBit := by
  simp [websocket_read_frame_hdr, net_readn_two, h]

/-- C6 witness: RSV1 set. -/
theorem read_frame_hdr_rejects_reserved_bits_witness :
    websocket_read_frame_hdr (0x40 :: 0x81 :: []) = .error .reservedBit :=
  read_frame_hdr_rejects_reserved_bits 0x40 0x81 [] (by decide)

/-- C7: an inbound frame whose header has fin = 0 makes websocket_recv
fail with the fragmentation error before delivering any payload,
whatever its opcode, mask bit or length class. -/
theorem recv_rejects_continuation_fragment (b0 b1 : Nat) (rest : List Nat) (cap : Nat)
    (hrsv : b0 &&& 0x70 = 0) (hfin : b0 &&& 0x80 = 0) (hlen : 8 ≤ rest.length) :
    websocket_recv 0 (b0 :: b1 :: rest) cap = .error .fragmentation := by
  rcases rest with _ | ⟨x0, rest⟩
  · simp at hlen
  rcases rest with _ | ⟨x1, rest⟩
  · simp at hlen
  rcases rest with _ | ⟨x2, rest⟩
  · simp at hlen
  rcases rest with _ | ⟨x3, rest⟩
  · simp at hlen
  rcases rest with _ | ⟨x4, rest⟩
  · simp at hlen
  rcases rest with _ | ⟨x5, rest⟩
  · simp at hlen
  rcases rest with _ | ⟨x6, rest⟩
  · simp at hlen
  rcases rest with _ | ⟨x7, rest⟩
  · simp at hlen
  rcases Nat.lt_or_ge (b1 &&& 0x7f) 126 with hc | hc
  · simp [websocket_recv,
      read_frame_hdr_small b0 b1 (x0 :: x1 :: x2 :: x3 :: x4 :: x5 :: x6 :: x7 :: rest)
        hrsv (by omega), hfin]
  · have hc2 : b1 &&& 0x7f ≤ 127 := Nat.and_le_right
    rcases Nat.eq_or_lt_of_le hc with hc6 | hc7
    · simp [websocket_recv,
        read_frame_hdr_126 b0 b1 x0 x1 (x2 :: x3 :: x4 :: x5 :: x6 :: x7 :: rest)
          hrsv hc6.symm, hfin]
    · simp [websocket_recv,
        read_frame_hdr_127 b0 b1 x0 x1 x2 x3 x4 x5 x6 x7 rest hrsv (by omega), hfin]

/-- C7 witness: a binary continuation fragment is refused. -/
theorem recv_rejects_continuation_fragment_witness :
    websocket_recv 0 (0x02 :: 0x05 :: [1, 2, 3, 4, 5, 6, 7, 8]) 64 =
      .error .fragmentation :=
  recv_rejects_continuation_fragment 0x02 0x05 [1, 2, 3, 4, 5, 6, 7, 8] 64
    (by decide) (by decide) (by decide)

/-- C8: a handshake response whose first 32 buffer bytes differ from the
literal status line fails with the rejection error, and the outcome does
not depend on the accept-key computation at all — the accept value is
neither needed nor compared on that path. -/
theorem handshake_rejects_non_101_status (resp : List Nat) (a1 a2 : Option (List Nat))
    (h : (resp ++ List.replicate 4096 0).take 32 ≠ statusLine) :
    handshakeCheck resp a1 = .error .handshakeRejected ∧
    handshakeCheck resp a1 = handshakeCheck resp a2 := by
  constructor
  · simp only [handshakeCheck]
    rw [if_pos h]
  · simp only [handshakeCheck]
    rw [if_pos h, if_pos h]

/-- C8 witness: a 403 status is rejected independently of the accept key. -/
theorem handshake_rejects_non_101_status_witness :
    handshakeCheck ("HTTP/1.1 403 Forbidden".toList.map Char.toNat) (some [1, 2, 3]) =
      .error .handshakeRejected ∧
    handshakeCheck ("HTTP/1.1 403 Forbidden".toList.map Char.toNat) (some [1, 2, 3]) =
      handshakeCheck ("HTTP/1.1 403 Forbidden".toList.map Char.toNat) none :=
  handshake_rejects_non_101_status _ (some [1, 2, 3]) none (by decide)

/-- C9: websocket_send writes the header in one transport call before any
payload, streams the payload in chunks of at most 2048 bytes, and masks
byte i of the payload with mask_key[i % 4] using the absolute index i, so
the flattened chunk writes equal the absolutely-indexed masked stream. -/
theorem send_masks_with_absolute_index (rand : Nat → Nat) (ty : Nat) (p : List Nat) :
    (websocket_send rand ty p).1 =
      sendHeader ty p.length (sendMaskKey rand) ::
        payloadChunks (maskedPayload (sendMaskKey rand) p) ∧
    ((websocket_send rand ty p).1.tail).flatten = maskedPayload (sendMaskKey rand) p ∧
    (∀ c ∈ (websocket_send rand ty p).1.tail, c.length ≤ 2048) ∧
    (∀ i, i < p.length →
      (maskedPayload (sendMaskKey rand) p).getD i 0 =
        p.getD i 0 ^^^ (sendMaskKey rand).getD (i % 4) 0) := by
  refine ⟨rfl, ?_, ?_, ?_⟩
  · simp only [websocket_send, List.tail_cons]
    exact payloadChunks_flatten _
  · simp only [websocket_send, List.tail_cons]
    exact payloadChunks_sizes _
  · intro i hi
    have hlen : i < ((List.range p.length).map fun j =>
        p.getD j 0 ^^^ (sendMaskKey rand).getD (j % 4) 0).length := by
      simp [hi]
    rw [maskedPayload, List.getD_eq_getElem _ _ hlen]
    simp

/-- C9 witness: the two-byte payload [5, 6] under the identity stream. -/
theorem send_masks_with_absolute_index_witness :
    ((websocket_send (fun j => j) 1 [5, 6]).1.tail).flatten =
      maskedPayload (sendMaskKey fun j => j) [5, 6] ∧
    (maskedPayload (sendMaskKey fun j => j) [5, 6]).getD 1 0 =
      ([5, 6] : List Nat).getD 1 0 ^^^ (sendMaskKey fun j => j).getD (1 % 4) 0 :=
  ⟨(send_masks_with_absolute_index (fun j => j) 1 [5, 6]).2.1,
   (send_masks_with_absolute_index (fun j => j) 1 [5, 6]).2.2.2 1 (by decide)⟩

/-- C10: every random byte this layer generates — the 16 nonce bytes of
the handshake key and the 4 mask-key bytes of each sent frame — is the
source value reduced modulo 0xff = 255, so the byte 255 can never occur,
and two distinct source bytes (0 and 255) collide on 0, which rules out a
uniform distribution over all 256 byte values even under a uniform
source. -/
theorem random_bytes_are_mod_255 (rand : Nat → Nat) :
    (∀ r, genByte r = r % 255) ∧
    (∀ b ∈ websocket_nonce rand, b ≠ 255) ∧
    (∀ b ∈ sendMaskKey rand, b ≠ 255) ∧
    genByte 0 = genByte 255 := by
  refine ⟨fun r => rfl, ?_, ?_, rfl⟩
  · intro b hb
    simp only [websocket_nonce, List.mem_map] at hb
    obtain ⟨i, _, rfl⟩ := hb
    have h := Nat.mod_lt (rand i) (by norm_num : (0 : Nat) < 255)
    simp only [genByte]
    omega
  · intro b hb
    simp only [sendMaskKey, List.mem_map] at hb
    obtain ⟨i, _, rfl⟩ := hb
    have h := Nat.mod_lt (rand i) (by norm_num : (0 : Nat) < 255)
    simp only [genByte]
    omega

/-- C10 witness: under the constant-255 source every nonce byte is 0. -/
theorem random_bytes_are_mod_255_witness :
    genByte 7 = 7 % 255 ∧ (0 : Nat) ≠ 255 ∧ genByte 0 = genByte 255 :=
  ⟨(random_bytes_are_mod_255 (fun _ => 255)).1 7,
   (random_bytes_are_mod_255 (fun _ => 255)).2.1 0 (by decide),
   (random_bytes_are_mod_255 (fun _ => 255)).2.2.2⟩

end WS
